import Mathlib

/-!
Shallow embedding of `github/api.go` (package `github`): a minimal GitHub API
client with four operations (ProjectForURL, Repo, LatestRelease, Releases,
Download) and a shared decode/error-classification routine.

The HTTP world is abstracted as an environment `HttpEnv` supplying the outcome
of URL parsing inside `http.NewRequest` and the outcome of one transport round
trip; `http.Client.Do` is embedded faithfully to its documented contract (any
returned error is a `*url.Error` carrying the request URL).  Go errors built
with `github.com/pkg/errors` are embedded as the inductive `GoError`.  Side
effects on the response body (issuing the request, JSON-decoding the body,
closing the body) are recorded as an event trace in the result of each
operation, so that resource-handling claims become statements about traces.
-/

/-- Embedding of the Go error values produced by this package:
`errors.Wrap(cause, msg)`, `errors.WithStack(cause)`, `errors.Errorf(msg)`,
plain underlying errors, and the `*url.Error` that `http.Client.Do` wraps
transport failures in (it carries the operation name and the request URL). -/
inductive GoError where
  | base (msg : String)
  | wrap (cause : GoError) (msg : String)
  | withStack (cause : GoError)
  | errorf (msg : String)
  | urlError (op : String) (url : String) (cause : GoError)
  deriving DecidableEq

/-- Whether an error value has the given URL attached somewhere in its chain:
either as the message of an `errors.Wrap` annotation or as the URL field of a
`*url.Error`. -/
def GoError.carriesURL (u : String) : GoError → Bool
  | GoError.base _ => false
  | GoError.wrap cause msg => msg == u || GoError.carriesURL u cause
  | GoError.withStack cause => GoError.carriesURL u cause
  | GoError.errorf _ => false
  | GoError.urlError _ u2 cause => u2 == u || GoError.carriesURL u cause

/-- `http.Header`: header names mapped to lists of values. -/
def Header : Type := List (String × List String)

/-- `http.Request`, restricted to the fields this client sets. -/
structure Request where
  Method : String
  URL : String
  Header : List (String × List String)
  deriving DecidableEq

/-- `http.Response`, restricted to the fields this client reads: the numeric
status code, the status text, and the raw body bytes. -/
structure Response where
  StatusCode : Nat
  Status : String
  Body : String
  deriving DecidableEq

/-- The transport configured in an `http.Client`: either the system default
transport, or a token-authenticating decorator over a base transport. -/
inductive Transport where
  | defaultT : Transport
  | authenticated (base : Transport) (token : String) : Transport
  deriving DecidableEq

/-- Modelled from the spec: `TokenAuthenticatedTransport` is defined in this
repository outside `src/`; per §4.1 it decorates the given base transport
(the system default when none is supplied, i.e. when Go `nil` is passed) so
that every request through it gains an authorization header derived from the
token. -/
def TokenAuthenticatedTransport (base : Option Transport) (token : String) : Transport :=
  Transport.authenticated (base.getD Transport.defaultT) token

/-- `http.Client`: holds its transport configuration. -/
structure HttpClient where
  transport : Transport
  deriving DecidableEq

/-- `http.DefaultClient`: the process-wide default client, using the default
transport (no authentication decorator). -/
def httpDefaultClient : HttpClient := { transport := Transport.defaultT }

/-- Observable side effects of one client operation on the HTTP connection:
issuing a round trip, JSON-decoding the response body, closing the body. -/
inductive Event where
  | doRequest (req : Request)
  | decodeBody
  | closeBody
  deriving DecidableEq

/-- Whether an event is an HTTP round trip. -/
def Event.isDoRequest : Event → Bool
  | Event.doRequest _ => true
  | Event.decodeBody => false
  | Event.closeBody => false

/-- The abstract HTTP world: the outcome of request-URL parsing inside
`http.NewRequest`, and the outcome of one transport round trip for a given
transport and request (`Except.error` is a network-level transport failure). -/
structure HttpEnv where
  parseRequestURL : String → Option GoError
  roundTrip : Transport → Request → Except GoError Response

/-- `http.NewRequest("GET", url, nil)`: fails exactly when the URL fails to
parse; otherwise yields a request with an empty header map. -/
def httpNewRequest (env : HttpEnv) (method u : String) : Except GoError Request :=
  match env.parseRequestURL u with
  | some e => Except.error e
  | none => Except.ok { Method := method, URL := u, Header := [] }

/-- `http.Client.Do`: performs one round trip; per its documented contract any
returned error is a `*url.Error` carrying the request URL. -/
def HttpClient.Do (env : HttpEnv) (c : HttpClient) (req : Request) : Except GoError Response :=
  match env.roundTrip c.transport req with
  | Except.error cause => Except.error (GoError.urlError "Get" req.URL cause)
  | Except.ok resp => Except.ok resp

/-- `github.Repo`: repo information (api.go lines 16-19). -/
structure Repo where
  Description : String
  Homepage : String
  deriving DecidableEq

/-- `github.Asset`: a release asset (api.go lines 32-35). -/
structure Asset where
  Name : String
  URL : String
  deriving DecidableEq

/-- `github.Release`: release meta information (api.go lines 24-27). -/
structure Release where
  TagName : String
  Assets : List Asset
  deriving DecidableEq

/-- `github.Client` (api.go lines 38-40). -/
structure Client where
  client : HttpClient
  deriving DecidableEq

/-- `github.New` (api.go lines 43-51): empty token selects the process default
client; otherwise an authenticated transport over a nil (default) base. -/
def New (token : String) : Client :=
  if token = "" then { client := httpDefaultClient }
  else { client := { transport := TokenAuthenticatedTransport none token } }

/-- The result of a parsed Go URL (`net/url.URL`), restricted to the fields
`ProjectForURL` reads. -/
structure GoURL where
  Host : String
  Path : String
  deriving DecidableEq

/-- Helper for Go `strings.Split(s, "/")` over the character list: splits
around every `/`, keeping empty segments, and never returns an empty list. -/
def splitSlashChars : List Char → List (List Char)
  | [] => [[]]
  | c :: cs =>
    match splitSlashChars cs with
    | [] => [[c]]
    | g :: gs => if c = '/' then [] :: g :: gs else (c :: g) :: gs

/-- Go `strings.Split(s, "/")`: all substrings of `s` between instances of
`/`, empty segments included (`Split("", "/") = [""]`). -/
def stringsSplitSlash (s : String) : List String :=
  (splitSlashChars s.data).map (fun l => String.mk l)

/-- Go `strings.Join(elems, sep)`: the elements concatenated with `sep`
between consecutive elements. -/
def stringsJoin : List String → String → String
  | [], _ => ""
  | [x], _ => x
  | x :: y :: xs, sep => x ++ sep ++ stringsJoin (y :: xs) sep

/-- `Client.ProjectForURL` (api.go lines 54-67), parameterised by the outcome
function of `net/url.Parse` (`none` = parse error).  Returns `""` on parse
failure, host other than `github.com`, or fewer than 3 path segments;
otherwise joins path segments 1 and 2 (the Go slice `parts[1:3]`) with `/`. -/
def Client.ProjectForURL (parseURL : String → Option GoURL) (_a : Client)
    (sourceURL : String) : String :=
  match parseURL sourceURL with
  | none => ""
  | some u =>
    if u.Host ≠ "github.com" then ""
    else if (stringsSplitSlash u.Path).length < 3 then ""
    else stringsJoin (((stringsSplitSlash u.Path).drop 1).take 2) "/"

/-- `Client.request` (api.go lines 121-129): builds a GET request and installs
the given headers (Go clones the header map; the clone is value-identical). -/
def Client.request (env : HttpEnv) (_a : Client) (u : String)
    (headers : List (String × List String)) : Except GoError Request :=
  match httpNewRequest env "GET" u with
  | Except.error e => Except.error (GoError.withStack e)
  | Except.ok req => Except.ok { req with Header := headers }

/-- Result of a JSON-returning operation: the destination value after the call
(Go mutates it through a pointer), the returned error, and the event trace. -/
structure DecodeResult (α : Type) where
  dest : α
  err : Option GoError
  events : List Event
  deriving DecidableEq

/-- `Client.decode` (api.go lines 100-119), parameterised by the behaviour of
`json.NewDecoder(body).Decode(dest)` for the destination type: given the body
and the destination value it returns the updated destination and an optional
decode error.  `defer resp.Body.Close()` is armed once a response is received,
so every later exit path ends with a `closeBody` event. -/
def Client.decode {α : Type} (env : HttpEnv)
    (jsonDecode : String → α → α × Option GoError) (a : Client) (u : String)
    (dest : α) : DecodeResult α :=
  match Client.request env a u [] with
  | Except.error e => { dest := dest, err := some (GoError.wrap e u), events := [] }
  | Except.ok req =>
    match HttpClient.Do env a.client req with
    | Except.error e =>
      { dest := dest, err := some (GoError.wrap e u), events := [Event.doRequest req] }
    | Except.ok resp =>
      if resp.StatusCode < 200 || resp.StatusCode > 299 then
        { dest := dest
          err := some (GoError.errorf
            (u ++ ": GitHub API request failed with " ++ resp.Status))
          events := [Event.doRequest req, Event.closeBody] }
      else
        match jsonDecode resp.Body dest with
        | (d, some e) =>
          { dest := d, err := some (GoError.wrap e u)
            events := [Event.doRequest req, Event.decodeBody, Event.closeBody] }
        | (d, none) =>
          { dest := d, err := none
            events := [Event.doRequest req, Event.decodeBody, Event.closeBody] }

/-- `Client.Repo` (api.go lines 70-74). -/
def Client.Repo (env : HttpEnv) (jsonDecode : String → Repo → Repo × Option GoError)
    (a : Client) (repo : String) : DecodeResult Repo :=
  Client.decode env jsonDecode a ("https://api.github.com/repos/" ++ repo)
    { Description := "", Homepage := "" }

/-- `Client.LatestRelease` (api.go lines 77-81). -/
def Client.LatestRelease (env : HttpEnv)
    (jsonDecode : String → Release → Release × Option GoError) (a : Client)
    (repo : String) : DecodeResult Release :=
  Client.decode env jsonDecode a
    ("https://api.github.com/repos/" ++ repo ++ "/releases/latest")
    { TagName := "", Assets := [] }

/-- `Client.Releases` (api.go lines 84-87); `fmt.Sprintf` of the URL pattern
equals the plain concatenation, and the destination starts as the nil slice. -/
def Client.Releases (env : HttpEnv)
    (jsonDecode : String → List Release → List Release × Option GoError)
    (a : Client) (repo : String) : DecodeResult (List Release) :=
  Client.decode env jsonDecode a
    ("https://api.github.com/repos/" ++ repo ++ "/releases") []

/-- Result of `Client.Download`: the live response (if any), the returned
error, and the event trace. -/
structure DownloadResult where
  resp : Option Response
  err : Option GoError
  events : List Event
  deriving DecidableEq

/-- `Client.Download` (api.go lines 90-98): builds a GET request to the asset
URL with an `Accept: application/octet-stream` header and returns the outcome
of `a.client.Do(req)` as-is — no body read, no body close, no status check. -/
def Client.Download (env : HttpEnv) (a : Client) (asset : Asset) : DownloadResult :=
  match Client.request env a asset.URL [("Accept", ["application/octet-stream"])] with
  | Except.error e => { resp := none, err := some (GoError.withStack e), events := [] }
  | Except.ok req =>
    match HttpClient.Do env a.client req with
    | Except.error e => { resp := none, err := some e, events := [Event.doRequest req] }
    | Except.ok resp => { resp := some resp, err := none, events := [Event.doRequest req] }

/-! ## Concrete instances used by witnesses -/

/-- A concrete stand-in for `net/url.Parse` on a handful of inputs, used by
witnesses. -/
def pGH : String → Option GoURL := fun s =>
  if s = "https://github.com/foo/bar/releases/tag/v1" then
    some { Host := "github.com", Path := "/foo/bar/releases/tag/v1" }
  else if s = "https://github.com/owner/" then
    some { Host := "github.com", Path := "/owner/" }
  else if s = "https://github.com/foo" then
    some { Host := "github.com", Path := "/foo" }
  else if s = "https://gitlab.com/owner/project" then
    some { Host := "gitlab.com", Path := "/owner/project" }
  else none

/-- A concrete unauthenticated client, used by witnesses. -/
def c0 : Client := { client := httpDefaultClient }

/-! ## ProjectForURL -/

/-- Helper: when the URL parses, the host matches, and the path has at least
three `/`-separated segments, `ProjectForURL` returns segment 1 and segment 2
joined by `/`. -/
theorem projectForURL_success_eq (parseURL : String → Option GoURL) (a : Client)
    (s : String) (u : GoURL) (p0 p1 p2 : String) (rest : List String)
    (hp : parseURL s = some u) (hh : u.Host = "github.com")
    (hsplit : stringsSplitSlash u.Path = p0 :: p1 :: p2 :: rest) :
    Client.ProjectForURL parseURL a s = p1 ++ "/" ++ p2 := by
  unfold Client.ProjectForURL
  rw [hp]
  simp only [hh, hsplit, ne_eq, not_true_eq_false, if_false, List.length_cons,
    List.drop_succ_cons, List.drop_zero, List.take_succ_cons, List.take_zero]
  rw [if_neg (by omega)]
  simp [stringsJoin]

/-- Claim C3: for every input string that parses as a URL with host
`github.com` and whose path splits on `/` into at least 3 segments,
`ProjectForURL` returns path segments 1 and 2 (0-indexed) joined by a single
`/`, regardless of any further path segments. -/
theorem projectForURL_owner_project (parseURL : String → Option GoURL) (a : Client)
    (s : String) (u : GoURL) (p0 p1 p2 : String) (rest : List String)
    (hp : parseURL s = some u) (hh : u.Host = "github.com")
    (hsplit : stringsSplitSlash u.Path = p0 :: p1 :: p2 :: rest) :
    Client.ProjectForURL parseURL a s = p1 ++ "/" ++ p2 :=
  projectForURL_success_eq parseURL a s u p0 p1 p2 rest hp hh hsplit

/-- Witness for C3 at the spec's example input. -/
theorem projectForURL_owner_project_witness :
    Client.ProjectForURL pGH c0 "https://github.com/foo/bar/releases/tag/v1" = "foo/bar" :=
  (projectForURL_owner_project pGH c0 "https://github.com/foo/bar/releases/tag/v1"
      { Host := "github.com", Path := "/foo/bar/releases/tag/v1" } "" "foo" "bar"
      ["releases", "tag", "v1"] (by decide) rfl (by decide)).trans (by decide)

/-- Claim C4: `ProjectForURL` is a total function into strings (it can neither
fail nor panic in the embedding) and returns the empty-string sentinel in each
failure mode: parse failure, host other than `github.com`, or a path with
fewer than 3 `/`-separated segments. -/
theorem projectForURL_sentinel (parseURL : String → Option GoURL) (a : Client)
    (s : String) :
    (parseURL s = none → Client.ProjectForURL parseURL a s = "") ∧
    (∀ u : GoURL, parseURL s = some u → u.Host ≠ "github.com" →
      Client.ProjectForURL parseURL a s = "") ∧
    (∀ u : GoURL, parseURL s = some u → (stringsSplitSlash u.Path).length < 3 →
      Client.ProjectForURL parseURL a s = "") := by
  refine ⟨fun hp => ?_, fun u hp hh => ?_, fun u hp hl => ?_⟩
  · unfold Client.ProjectForURL
    rw [hp]
  · unfold Client.ProjectForURL
    rw [hp]
    simp [hh]
  · unfold Client.ProjectForURL
    rw [hp]
    by_cases hh : u.Host = "github.com"
    · simp [hh, hl, if_pos hl]
    · simp [hh]

/-- Witness for C4 at the spec's wrong-host example input. -/
theorem projectForURL_sentinel_witness :
    Client.ProjectForURL pGH c0 "https://gitlab.com/owner/project" = "" :=
  (projectForURL_sentinel pGH c0 "https://gitlab.com/owner/project").2.1
    { Host := "gitlab.com", Path := "/owner/project" } (by decide) (by decide)

/-- Claim C10: on a matching host whose path splits into exactly three parts
with the third empty (e.g. path `/owner/`), `ProjectForURL` returns the owner
segment followed by a trailing `/` — a non-empty result, not the sentinel. -/
theorem projectForURL_trailing_empty_segment (parseURL : String → Option GoURL)
    (a : Client) (s : String) (u : GoURL) (p0 owner : String)
    (hp : parseURL s = some u) (hh : u.Host = "github.com")
    (hsplit : stringsSplitSlash u.Path = [p0, owner, ""]) :
    Client.ProjectForURL parseURL a s = owner ++ "/" ∧
    Client.ProjectForURL parseURL a s ≠ "" := by
  have h := projectForURL_success_eq parseURL a s u p0 owner "" [] hp hh hsplit
  rw [String.append_empty] at h
  refine ⟨h, ?_⟩
  rw [h]
  intro hc
  have hlen := congrArg String.length hc
  simp [String.length_append] at hlen
  exact absurd hlen.2 (by decide)

/-- Witness for C10 at the input `https://github.com/owner/`. -/
theorem projectForURL_trailing_empty_segment_witness :
    Client.ProjectForURL pGH c0 "https://github.com/owner/" = "owner" ++ "/" ∧
    Client.ProjectForURL pGH c0 "https://github.com/owner/" ≠ "" :=
  projectForURL_trailing_empty_segment pGH c0 "https://github.com/owner/"
    { Host := "github.com", Path := "/owner/" } "" "owner" (by decide) rfl (by decide)

/-! ## The request values the client builds -/

/-- The request the decode routine sends: a GET to the given URL with the
empty extra header map installed. -/
def getRequest (u : String) : Request :=
  { Method := "GET", URL := u, Header := [] }

/-- The request `Download` sends: a GET to the asset URL carrying an
`Accept: application/octet-stream` header. -/
def downloadRequest (asset : Asset) : Request :=
  { Method := "GET", URL := asset.URL
    Header := [("Accept", ["application/octet-stream"])] }

/-! ## Case equations for the decode routine and Download -/

/-- Request construction failed: decode wraps the stack-annotated cause with
the URL and performs no round trip. -/
theorem decode_eq_of_parse_error {α : Type} (env : HttpEnv)
    (jsonDecode : String → α → α × Option GoError) (a : Client) (u : String)
    (dest : α) (e : GoError) (hp : env.parseRequestURL u = some e) :
    Client.decode env jsonDecode a u dest =
      { dest := dest, err := some (GoError.wrap (GoError.withStack e) u), events := [] } := by
  unfold Client.decode Client.request httpNewRequest
  rw [hp]

/-- Transport round trip failed: decode wraps the `*url.Error` from `Do` with
the URL; the single issued request is recorded, no body exists to close. -/
theorem decode_eq_of_transport_error {α : Type} (env : HttpEnv)
    (jsonDecode : String → α → α × Option GoError) (a : Client) (u : String)
    (dest : α) (cause : GoError) (hp : env.parseRequestURL u = none)
    (hrt : env.roundTrip a.client.transport (getRequest u) = Except.error cause) :
    Client.decode env jsonDecode a u dest =
      { dest := dest
        err := some (GoError.wrap (GoError.urlError "Get" u cause) u)
        events := [Event.doRequest (getRequest u)] } := by
  unfold getRequest at hrt
  unfold Client.decode Client.request httpNewRequest HttpClient.Do getRequest
  rw [hp]
  simp only []
  rw [hrt]

/-- A response was received: decode checks the status, then either fails with
the API-request-failed error (body closed, not decoded) or runs the JSON
decoder and closes the body. -/
theorem decode_eq_of_response {α : Type} (env : HttpEnv)
    (jsonDecode : String → α → α × Option GoError) (a : Client) (u : String)
    (dest : α) (resp : Response) (hp : env.parseRequestURL u = none)
    (hrt : env.roundTrip a.client.transport (getRequest u) = Except.ok resp) :
    Client.decode env jsonDecode a u dest =
      if resp.StatusCode < 200 || resp.StatusCode > 299 then
        { dest := dest
          err := some (GoError.errorf
            (u ++ ": GitHub API request failed with " ++ resp.Status))
          events := [Event.doRequest (getRequest u), Event.closeBody] }
      else
        match jsonDecode resp.Body dest with
        | (d, some e) =>
          { dest := d, err := some (GoError.wrap e u)
            events := [Event.doRequest (getRequest u), Event.decodeBody, Event.closeBody] }
        | (d, none) =>
          { dest := d, err := none
            events := [Event.doRequest (getRequest u), Event.decodeBody, Event.closeBody] } := by
  unfold getRequest at hrt
  unfold Client.decode Client.request httpNewRequest HttpClient.Do getRequest
  rw [hp]
  simp only []
  rw [hrt]

/-- Request construction failed: `Download` returns the doubly stack-annotated
cause and issues nothing. -/
theorem download_eq_of_parse_error (env : HttpEnv) (a : Client) (asset : Asset)
    (e : GoError) (hp : env.parseRequestURL asset.URL = some e) :
    Client.Download env a asset =
      { resp := none, err := some (GoError.withStack (GoError.withStack e)), events := [] } := by
  unfold Client.Download Client.request httpNewRequest
  rw [hp]

/-- Transport round trip failed: `Download` returns the `*url.Error` from `Do`
unchanged, after the single request was issued. -/
theorem download_eq_of_transport_error (env : HttpEnv) (a : Client) (asset : Asset)
    (cause : GoError) (hp : env.parseRequestURL asset.URL = none)
    (hrt : env.roundTrip a.client.transport (downloadRequest asset) = Except.error cause) :
    Client.Download env a asset =
      { resp := none
        err := some (GoError.urlError "Get" asset.URL cause)
        events := [Event.doRequest (downloadRequest asset)] } := by
  unfold downloadRequest at hrt
  unfold Client.Download Client.request httpNewRequest HttpClient.Do downloadRequest
  rw [hp]
  simp only []
  rw [hrt]

/-- A response was received: `Download` hands the live response back with no
body read, no close, and no status inspection. -/
theorem download_eq_of_response (env : HttpEnv) (a : Client) (asset : Asset)
    (resp : Response) (hp : env.parseRequestURL asset.URL = none)
    (hrt : env.roundTrip a.client.transport (downloadRequest asset) = Except.ok resp) :
    Client.Download env a asset =
      { resp := some resp, err := none
        events := [Event.doRequest (downloadRequest asset)] } := by
  unfold downloadRequest at hrt
  unfold Client.Download Client.request httpNewRequest HttpClient.Do downloadRequest
  rw [hp]
  simp only []
  rw [hrt]

/-! ## More concrete instances used by witnesses -/

/-- A concrete 404 response. -/
def resp404 : Response := { StatusCode := 404, Status := "404 Not Found", Body := "" }

/-- A concrete successful response. -/
def resp200 : Response := { StatusCode := 200, Status := "200 OK", Body := "{}" }

/-- A world in which every round trip yields the 200 response. -/
def env200 : HttpEnv :=
  { parseRequestURL := fun _ => none, roundTrip := fun _ _ => Except.ok resp200 }

/-- A world in which every round trip yields the 404 response. -/
def env404 : HttpEnv :=
  { parseRequestURL := fun _ => none, roundTrip := fun _ _ => Except.ok resp404 }

/-- A world in which every round trip fails at the transport level. -/
def envDown : HttpEnv :=
  { parseRequestURL := fun _ => none
    roundTrip := fun _ _ => Except.error (GoError.base "connection refused") }

/-- A JSON decoder behaviour that always succeeds with a fixed repo value. -/
def jdRepoD : String → Repo → Repo × Option GoError :=
  fun _ _ => ({ Description := "d", Homepage := "h" }, none)

/-- A JSON decoder behaviour for a single release that leaves it unchanged. -/
def jdRelD : String → Release → Release × Option GoError := fun _ r => (r, none)

/-- A JSON decoder behaviour for a release list that leaves it unchanged. -/
def jdRelsD : String → List Release → List Release × Option GoError := fun _ r => (r, none)

/-- A concrete release asset. -/
def asset0 : Asset := { Name := "tool.tar.gz", URL := "https://example.com/asset/1" }

/-! ## Decode routine: status classification, completeness, body closing -/

/-- Claim C1: once a response is received, decode returns the distinct
"GitHub API request failed" error carrying the URL and the status text
exactly when the status code lies outside [200, 299], and in that case the
destination is untouched and the body is never JSON-decoded. -/
theorem decode_api_failed_iff_bad_status {α : Type} (env : HttpEnv)
    (jsonDecode : String → α → α × Option GoError) (a : Client) (u : String)
    (dest : α) (resp : Response) (hp : env.parseRequestURL u = none)
    (hrt : env.roundTrip a.client.transport (getRequest u) = Except.ok resp) :
    ((Client.decode env jsonDecode a u dest).err =
        some (GoError.errorf (u ++ ": GitHub API request failed with " ++ resp.Status)) ↔
      (resp.StatusCode < 200 ∨ 299 < resp.StatusCode)) ∧
    ((resp.StatusCode < 200 ∨ 299 < resp.StatusCode) →
      (Client.decode env jsonDecode a u dest).dest = dest ∧
      Event.decodeBody ∉ (Client.decode env jsonDecode a u dest).events) := by
  have heq := decode_eq_of_response env jsonDecode a u dest resp hp hrt
  by_cases hst : resp.StatusCode < 200 ∨ 299 < resp.StatusCode
  · have hb : (resp.StatusCode < 200 || resp.StatusCode > 299) = true := by
      simp only [Bool.or_eq_true, decide_eq_true_eq]
      omega
    rw [heq, if_pos hb]
    refine ⟨⟨fun _ => hst, fun _ => rfl⟩, fun _ => ⟨rfl, by simp⟩⟩
  · have hb : (resp.StatusCode < 200 || resp.StatusCode > 299) = false := by
      simp only [Bool.or_eq_false_iff, decide_eq_false_iff_not]
      omega
    rw [heq, if_neg (by simp [hb])]
    refine ⟨?_, fun h => absurd h hst⟩
    cases hjd : jsonDecode resp.Body dest with
    | mk d oe =>
      cases oe with
      | none =>
        simp
        omega
      | some e => simp [hst]

/-- Witness for C1: in the 404 world the destination is untouched and the
body is not decoded. -/
theorem decode_api_failed_iff_bad_status_witness :
    (Client.decode env404 jdRepoD c0 "https://api.github.com/repos/o/r"
        { Description := "", Homepage := "" }).dest =
      { Description := "", Homepage := "" } ∧
    Event.decodeBody ∉ (Client.decode env404 jdRepoD c0 "https://api.github.com/repos/o/r"
        { Description := "", Homepage := "" }).events :=
  (decode_api_failed_iff_bad_status env404 jdRepoD c0 "https://api.github.com/repos/o/r"
    { Description := "", Homepage := "" } resp404 rfl rfl).2 (by decide)

/-- Claim C8: once a response is received, the decode routine closes the body
before returning on every exit path — the last recorded event is always the
body close. -/
theorem decode_closes_body {α : Type} (env : HttpEnv)
    (jsonDecode : String → α → α × Option GoError) (a : Client) (u : String)
    (dest : α) (resp : Response) (hp : env.parseRequestURL u = none)
    (hrt : env.roundTrip a.client.transport (getRequest u) = Except.ok resp) :
    (Client.decode env jsonDecode a u dest).events.getLast? = some Event.closeBody := by
  rw [decode_eq_of_response env jsonDecode a u dest resp hp hrt]
  by_cases hb : (resp.StatusCode < 200 || resp.StatusCode > 299) = true
  · rw [if_pos hb]
    rfl
  · rw [if_neg hb]
    cases hjd : jsonDecode resp.Body dest with
    | mk d oe =>
      cases oe with
      | none => rfl
      | some e => rfl

/-- Witness for C8 on the 404 exit path. -/
theorem decode_closes_body_witness :
    (Client.decode env404 jdRepoD c0 "https://api.github.com/repos/o/r"
        { Description := "", Homepage := "" }).events.getLast? = some Event.closeBody :=
  decode_closes_body env404 jdRepoD c0 "https://api.github.com/repos/o/r"
    { Description := "", Homepage := "" } resp404 rfl rfl

/-- A JSON-decoding call returns a fully decoded result or an error: the
result is error-free only when a response arrived with a 2xx status and the
JSON decoder finished without error, the returned value being exactly the
decoder's output; and any decoder failure surfaces, wrapped with the URL. -/
def DecodedFully {α : Type} (env : HttpEnv)
    (jsonDecode : String → α → α × Option GoError) (a : Client) (u : String)
    (dest0 : α) (r : DecodeResult α) : Prop :=
  (r.err = none →
    ∃ resp : Response,
      env.roundTrip a.client.transport (getRequest u) = Except.ok resp ∧
      (resp.StatusCode < 200 || resp.StatusCode > 299) = false ∧
      jsonDecode resp.Body dest0 = (r.dest, none)) ∧
  (∀ resp : Response, ∀ e : GoError,
    env.parseRequestURL u = none →
    env.roundTrip a.client.transport (getRequest u) = Except.ok resp →
    (resp.StatusCode < 200 || resp.StatusCode > 299) = false →
    (jsonDecode resp.Body dest0).2 = some e →
    r.err = some (GoError.wrap e u))

/-- Helper: the decode routine satisfies `DecodedFully` at every URL and
destination. -/
theorem decode_DecodedFully {α : Type} (env : HttpEnv)
    (jsonDecode : String → α → α × Option GoError) (a : Client) (u : String)
    (dest0 : α) :
    DecodedFully env jsonDecode a u dest0 (Client.decode env jsonDecode a u dest0) := by
  constructor
  · intro hnone
    cases hpe : env.parseRequestURL u with
    | some e =>
      rw [decode_eq_of_parse_error env jsonDecode a u dest0 e hpe] at hnone
      simp at hnone
    | none =>
      cases hrt : env.roundTrip a.client.transport (getRequest u) with
      | error cause =>
        rw [decode_eq_of_transport_error env jsonDecode a u dest0 cause hpe hrt] at hnone
        simp at hnone
      | ok resp =>
        have heq := decode_eq_of_response env jsonDecode a u dest0 resp hpe hrt
        by_cases hb : (resp.StatusCode < 200 || resp.StatusCode > 299) = true
        · rw [heq, if_pos hb] at hnone
          simp at hnone
        · have hb' : (resp.StatusCode < 200 || resp.StatusCode > 299) = false :=
            Bool.eq_false_iff.mpr hb
          refine ⟨resp, rfl, hb', ?_⟩
          rw [heq, if_neg hb] at hnone ⊢
          cases hjd : jsonDecode resp.Body dest0 with
          | mk d oe =>
            rw [hjd] at hnone
            cases oe with
            | some e => simp at hnone
            | none => simp
  · intro resp e hpe hrt hb hjd
    have heq := decode_eq_of_response env jsonDecode a u dest0 resp hpe hrt
    rw [heq, if_neg (by simp [hb])]
    cases hjd2 : jsonDecode resp.Body dest0 with
    | mk d oe =>
      rw [hjd2] at hjd
      simp at hjd
      rw [hjd]

/-- Claim C2: each of Repo, LatestRelease and Releases returns either a fully
decoded result with nil error or a non-nil error; a decoder failure (malformed
JSON, type mismatch) is always surfaced, wrapped with the URL, and never
passed off as success with a partial result. -/
theorem json_ops_full_or_error (env : HttpEnv)
    (jdR : String → Repo → Repo × Option GoError)
    (jdL : String → Release → Release × Option GoError)
    (jdS : String → List Release → List Release × Option GoError)
    (a : Client) (repo : String) :
    DecodedFully env jdR a ("https://api.github.com/repos/" ++ repo)
      { Description := "", Homepage := "" } (Client.Repo env jdR a repo) ∧
    DecodedFully env jdL a ("https://api.github.com/repos/" ++ repo ++ "/releases/latest")
      { TagName := "", Assets := [] } (Client.LatestRelease env jdL a repo) ∧
    DecodedFully env jdS a ("https://api.github.com/repos/" ++ repo ++ "/releases")
      [] (Client.Releases env jdS a repo) :=
  ⟨decode_DecodedFully env jdR a _ _, decode_DecodedFully env jdL a _ _,
    decode_DecodedFully env jdS a _ _⟩

/-- Witness for C2: in the 200 world `Repo` succeeds, so a response with 2xx
status exists whose decode output is exactly the returned value. -/
theorem json_ops_full_or_error_witness :
    ∃ resp : Response,
      env200.roundTrip c0.client.transport
        (getRequest ("https://api.github.com/repos/" ++ "o/r")) = Except.ok resp ∧
      (resp.StatusCode < 200 || resp.StatusCode > 299) = false ∧
      jdRepoD resp.Body { Description := "", Homepage := "" } =
        ((Client.Repo env200 jdRepoD c0 "o/r").dest, none) :=
  (json_ops_full_or_error env200 jdRepoD jdRelD jdRelsD c0 "o/r").1.1 rfl

/-! ## Transport failures, Download, construction, round-trip counts -/

/-- Claim C5: for each of the four operations, a network-level transport
failure surfaces as a non-nil error with the target URL attached (via the
`errors.Wrap` annotation for the JSON operations, via the `*url.Error`
returned by `Do` for Download). -/
theorem transport_failure_carries_url (env : HttpEnv)
    (jdR : String → Repo → Repo × Option GoError)
    (jdL : String → Release → Release × Option GoError)
    (jdS : String → List Release → List Release × Option GoError)
    (a : Client) (repo : String) (asset : Asset) (cR cL cS cD : GoError)
    (hpR : env.parseRequestURL ("https://api.github.com/repos/" ++ repo) = none)
    (hrR : env.roundTrip a.client.transport
      (getRequest ("https://api.github.com/repos/" ++ repo)) = Except.error cR)
    (hpL : env.parseRequestURL
      ("https://api.github.com/repos/" ++ repo ++ "/releases/latest") = none)
    (hrL : env.roundTrip a.client.transport
      (getRequest ("https://api.github.com/repos/" ++ repo ++ "/releases/latest")) =
        Except.error cL)
    (hpS : env.parseRequestURL
      ("https://api.github.com/repos/" ++ repo ++ "/releases") = none)
    (hrS : env.roundTrip a.client.transport
      (getRequest ("https://api.github.com/repos/" ++ repo ++ "/releases")) =
        Except.error cS)
    (hpD : env.parseRequestURL asset.URL = none)
    (hrD : env.roundTrip a.client.transport (downloadRequest asset) = Except.error cD) :
    (∃ e : GoError, (Client.Repo env jdR a repo).err = some e ∧
      GoError.carriesURL ("https://api.github.com/repos/" ++ repo) e = true) ∧
    (∃ e : GoError, (Client.LatestRelease env jdL a repo).err = some e ∧
      GoError.carriesURL ("https://api.github.com/repos/" ++ repo ++ "/releases/latest") e
        = true) ∧
    (∃ e : GoError, (Client.Releases env jdS a repo).err = some e ∧
      GoError.carriesURL ("https://api.github.com/repos/" ++ repo ++ "/releases") e = true) ∧
    (∃ e : GoError, (Client.Download env a asset).err = some e ∧
      GoError.carriesURL asset.URL e = true) := by
  refine ⟨?_, ?_, ?_, ?_⟩
  · unfold Client.Repo
    rw [decode_eq_of_transport_error env jdR a _ _ cR hpR hrR]
    exact ⟨_, rfl, by simp [GoError.carriesURL]⟩
  · unfold Client.LatestRelease
    rw [decode_eq_of_transport_error env jdL a _ _ cL hpL hrL]
    exact ⟨_, rfl, by simp [GoError.carriesURL]⟩
  · unfold Client.Releases
    rw [decode_eq_of_transport_error env jdS a _ _ cS hpS hrS]
    exact ⟨_, rfl, by simp [GoError.carriesURL]⟩
  · rw [download_eq_of_transport_error env a asset cD hpD hrD]
    exact ⟨_, rfl, by simp [GoError.carriesURL]⟩

/-- Witness for C5: with the transport down, `Download` fails with an error
carrying the asset URL. -/
theorem transport_failure_carries_url_witness :
    ∃ e : GoError, (Client.Download envDown c0 asset0).err = some e ∧
      GoError.carriesURL asset0.URL e = true :=
  (transport_failure_carries_url envDown jdRepoD jdRelD jdRelsD c0 "o/r" asset0
    (GoError.base "connection refused") (GoError.base "connection refused")
    (GoError.base "connection refused") (GoError.base "connection refused")
    rfl rfl rfl rfl rfl rfl rfl rfl).2.2.2

/-- Claim C6: `Download` builds a GET to `asset.URL` with the
`Accept: application/octet-stream` header and issues it exactly once; on
success it returns the live response untouched — no body read or close, no
decode, no status validation; it fails only with a request-construction error
or the transport error from `Do`. -/
theorem download_characterization (env : HttpEnv) (a : Client) (asset : Asset) :
    (∀ e : GoError, env.parseRequestURL asset.URL = some e →
      Client.Download env a asset =
        { resp := none, err := some (GoError.withStack (GoError.withStack e))
          events := [] }) ∧
    (∀ cause : GoError, env.parseRequestURL asset.URL = none →
      env.roundTrip a.client.transport (downloadRequest asset) = Except.error cause →
      Client.Download env a asset =
        { resp := none, err := some (GoError.urlError "Get" asset.URL cause)
          events := [Event.doRequest (downloadRequest asset)] }) ∧
    (∀ resp : Response, env.parseRequestURL asset.URL = none →
      env.roundTrip a.client.transport (downloadRequest asset) = Except.ok resp →
      Client.Download env a asset =
        { resp := some resp, err := none
          events := [Event.doRequest (downloadRequest asset)] }) :=
  ⟨fun e hp => download_eq_of_parse_error env a asset e hp,
   fun cause hp hrt => download_eq_of_transport_error env a asset cause hp hrt,
   fun resp hp hrt => download_eq_of_response env a asset resp hp hrt⟩

/-- Witness for C6: in the 200 world the live response comes back untouched
after exactly one GET with the octet-stream Accept header. -/
theorem download_characterization_witness :
    Client.Download env200 c0 asset0 =
      { resp := some resp200, err := none
        events := [Event.doRequest (downloadRequest asset0)] } :=
  (download_characterization env200 c0 asset0).2.2 resp200 rfl rfl

/-- Claim C7: `New` is a total pure function (it cannot fail and performs no
I/O in the embedding); the empty token selects the default unauthenticated
transport, and any other token selects the authenticating decorator wrapping
the default base transport. -/
theorem new_transport_selection :
    New "" = { client := httpDefaultClient } ∧
    (∀ token : String, token ≠ "" →
      New token = { client := { transport := TokenAuthenticatedTransport none token } } ∧
      TokenAuthenticatedTransport none token =
        Transport.authenticated Transport.defaultT token) := by
  refine ⟨rfl, fun token h => ⟨?_, rfl⟩⟩
  unfold New
  rw [if_neg h]

/-- Witness for C7 at a concrete non-empty token. -/
theorem new_transport_selection_witness :
    New "tok" = { client := { transport := TokenAuthenticatedTransport none "tok" } } ∧
    TokenAuthenticatedTransport none "tok" =
      Transport.authenticated Transport.defaultT "tok" :=
  new_transport_selection.2 "tok" (by decide)

/-- Helper: the decode routine performs at most one round trip, and exactly
one GET to its URL whenever the request could be built. -/
theorem decode_round_trips {α : Type} (env : HttpEnv)
    (jsonDecode : String → α → α × Option GoError) (a : Client) (u : String)
    (dest : α) :
    ((Client.decode env jsonDecode a u dest).events.filter Event.isDoRequest).length ≤ 1 ∧
    (env.parseRequestURL u = none →
      (Client.decode env jsonDecode a u dest).events.filter Event.isDoRequest =
        [Event.doRequest (getRequest u)]) := by
  cases hpe : env.parseRequestURL u with
  | some e =>
    rw [decode_eq_of_parse_error env jsonDecode a u dest e hpe]
    refine ⟨by simp, fun h => ?_⟩
    simp [hpe] at h
  | none =>
    cases hrt : env.roundTrip a.client.transport (getRequest u) with
    | error cause =>
      rw [decode_eq_of_transport_error env jsonDecode a u dest cause hpe hrt]
      constructor <;> simp [Event.isDoRequest, List.filter]
    | ok resp =>
      rw [decode_eq_of_response env jsonDecode a u dest resp hpe hrt]
      by_cases hb : (resp.StatusCode < 200 || resp.StatusCode > 299) = true
      · rw [if_pos hb]
        constructor <;> simp [Event.isDoRequest, List.filter]
      · rw [if_neg hb]
        cases hjd : jsonDecode resp.Body dest with
        | mk d oe =>
          cases oe <;> constructor <;> simp [Event.isDoRequest, List.filter]

/-- Claim C9: Repo, LatestRelease and Releases issue a GET to exactly their
endpoint URL (`/repos/{repo}`, `/repos/{repo}/releases/latest`,
`/repos/{repo}/releases` under the fixed API origin), with exactly one round
trip whenever the request could be built and never more than one (no
retries). -/
theorem json_ops_single_round_trip (env : HttpEnv)
    (jdR : String → Repo → Repo × Option GoError)
    (jdL : String → Release → Release × Option GoError)
    (jdS : String → List Release → List Release × Option GoError)
    (a : Client) (repo : String) :
    (((Client.Repo env jdR a repo).events.filter Event.isDoRequest).length ≤ 1 ∧
      (env.parseRequestURL ("https://api.github.com/repos/" ++ repo) = none →
        (Client.Repo env jdR a repo).events.filter Event.isDoRequest =
          [Event.doRequest (getRequest ("https://api.github.com/repos/" ++ repo))])) ∧
    (((Client.LatestRelease env jdL a repo).events.filter Event.isDoRequest).length ≤ 1 ∧
      (env.parseRequestURL ("https://api.github.com/repos/" ++ repo ++ "/releases/latest")
          = none →
        (Client.LatestRelease env jdL a repo).events.filter Event.isDoRequest =
          [Event.doRequest
            (getRequest ("https://api.github.com/repos/" ++ repo ++ "/releases/latest"))])) ∧
    (((Client.Releases env jdS a repo).events.filter Event.isDoRequest).length ≤ 1 ∧
      (env.parseRequestURL ("https://api.github.com/repos/" ++ repo ++ "/releases") = none →
        (Client.Releases env jdS a repo).events.filter Event.isDoRequest =
          [Event.doRequest
            (getRequest ("https://api.github.com/repos/" ++ repo ++ "/releases"))])) :=
  ⟨decode_round_trips env jdR a _ _, decode_round_trips env jdL a _ _,
    decode_round_trips env jdS a _ _⟩

/-- Witness for C9: in the 200 world `Repo` issues exactly one GET to its
endpoint. -/
theorem json_ops_single_round_trip_witness :
    (Client.Repo env200 jdRepoD c0 "o/r").events.filter Event.isDoRequest =
      [Event.doRequest (getRequest ("https://api.github.com/repos/" ++ "o/r"))] :=
  (json_ops_single_round_trip env200 jdRepoD jdRelD jdRelsD c0 "o/r").1.2 rfl
